import Mathlib

/-!
Verification of the inventory replenishment engine of the
flipkart-minutes-optimization repository
(source: src/analysis/inventory_optimization.py, class InventoryOptimizer).

Shallow embedding conventions:
* Machine floats are modelled by exact rationals.  All input quantities
  (demand, stock, lead times, costs) are rationals.
* Python round(x, n) rounds half to even; it is modelled exactly by
  roundHalfEven below, applied at one or two decimal places.
* numpy sqrt, sin, cos and pi are external numeric primitives over floats;
  they are passed in as function or constant parameters wherever the source
  calls them.  Claims only ever rely on properties such as nonnegativity of
  the square root, which appear as explicit hypotheses.
* The sklearn StandardScaler plus LinearRegression pipeline and the trained
  per-category model are external library state; the spec treats the
  forecaster as a pluggable predictor behind a fixed interface, and they are
  modelled as opaque function parameters (fit, predictRaw).  Everything the
  source itself computes around them (feature construction, splitting,
  clamping, rounding, aggregation, thresholds, sorting) is embedded
  directly.
* Operations that raise in Python (IndexError from .iloc[0] on an empty
  selection, sklearn errors on an empty training split) are modelled by
  Option: none means the whole call raises.
-/

/-- Python round-half-to-even on a rational, to an integer.
Matches CPython round(): round(0.5) = 0, round(1.5) = 2, round(-2.5) = -2. -/
def roundHalfEven (q : ℚ) : ℤ :=
  if q - (⌊q⌋ : ℚ) < 1/2 then ⌊q⌋
  else if 1/2 < q - (⌊q⌋ : ℚ) then ⌊q⌋ + 1
  else if 2 ∣ ⌊q⌋ then ⌊q⌋ else ⌊q⌋ + 1

/-- Python round(x, 1), as used throughout the source for output fields. -/
def roundTo1 (q : ℚ) : ℚ := (roundHalfEven (10 * q) : ℚ) / 10

/-- Python round(x, 2), as used for the model performance metrics. -/
def roundTo2 (q : ℚ) : ℚ := (roundHalfEven (100 * q) : ℚ) / 100

/-- A rational that is an integer multiple of one tenth, i.e. exactly a
one-decimal value.  Every roundTo1 output has this shape. -/
def isTenth (q : ℚ) : Prop := ∃ k : ℤ, q = (k : ℚ) / 10

/-! ### Data model (spec section 3; source columns) -/

/-- One row of the demand/event table (sample_data).  Timestamps are modelled
as integer hour counts; hour and dayOfWeek are the derived columns that
load_data adds from the timestamp (source lines 56-59). -/
structure DemandRecord where
  timestamp : ℤ
  hour : ℤ
  dayOfWeek : ℤ
  category : String
  demand_quantity : ℚ
deriving DecidableEq

/-- One row of the inventory table (inventory_data). -/
structure InventoryItem where
  dark_store_id : String
  product_name : String
  category : String
  current_stock : ℚ
  lead_time_hours : ℚ
  storage_cost_per_unit : ℚ
  supplier_reliability : ℚ
deriving DecidableEq

/-- One output row of calculate_optimal_stock_levels (source lines 297-309). -/
structure StockLevelPlan where
  dark_store_id : String
  product_name : String
  category : String
  current_stock : ℚ
  avg_daily_demand : ℚ
  safety_stock : ℚ
  reorder_point : ℚ
  optimal_max_stock : ℚ
  eoq : ℚ
  lead_time_hours : ℚ
  service_level : ℚ
deriving DecidableEq

/-- One row of the forecast table (source lines 232-237). -/
structure ForecastPoint where
  timestamp : ℤ
  hour : ℤ
  category : String
  predicted_demand : ℚ
deriving DecidableEq

/-- One row of the restocking schedule (source lines 382-395). -/
structure RestockAction where
  dark_store_id : String
  product_name : String
  category : String
  current_stock : ℚ
  predicted_demand_24h : ℚ
  projected_stock_24h : ℚ
  reorder_point : ℚ
  needs_restock : Bool
  urgency : String
  suggested_order_qty : ℚ
  lead_time_hours : ℚ
  supplier_reliability : ℚ
deriving DecidableEq

/-! ### Category demand statistics (source lines 256-259) -/

/-- All records of one category, in table order
(sample_data[sample_data[category] == c]). -/
def catRecords (data : List DemandRecord) (c : String) : List DemandRecord :=
  data.filter (fun r => r.category == c)

/-- Sum of a list of rationals (pandas .sum()). -/
def listSum (l : List ℚ) : ℚ := l.foldr (fun a b => a + b) 0

/-- Mean demand_quantity of a category (groupby mean).  Division by zero can
only occur for a category with no records, where the source raises before
ever using the value. -/
def catMean (data : List DemandRecord) (c : String) : ℚ :=
  let ds := (catRecords data c).map (fun r => r.demand_quantity)
  listSum ds / (ds.length : ℚ)

/-- Sample standard deviation of demand_quantity of a category
(pandas groupby std, ddof = 1).  For a single record pandas yields NaN,
modelled as none.  The square root is the external float primitive sqrtFn. -/
def catStd (sqrtFn : ℚ → ℚ) (data : List DemandRecord) (c : String) : Option ℚ :=
  let ds := (catRecords data c).map (fun r => r.demand_quantity)
  if 2 ≤ ds.length then
    some (sqrtFn (listSum (ds.map (fun x => (x - catMean data c) ^ 2)) /
      ((ds.length : ℚ) - 1)))
  else none

/-- Z-score lookup with default 1.65 (source lines 262-266). -/
def zScore (serviceLevel : ℚ) : ℚ :=
  if serviceLevel = 0.90 then 1.28
  else if serviceLevel = 0.95 then 1.65
  else if serviceLevel = 0.99 then 2.33
  else 1.65

/-! ### Stock level planner (calculate_optimal_stock_levels, lines 242-311) -/

/-- demand_std with the zero-variance fallback (line 279): the pandas NaN
for a single record compares False under the greater-than test, so it also
falls back to mean * 0.2. -/
def demandStd (sqrtFn : ℚ → ℚ) (data : List DemandRecord) (c : String) : ℚ :=
  match catStd sqrtFn data c with
  | some s => if 0 < s then s else catMean data c * 0.2
  | none => catMean data c * 0.2

/-- safety_stock before rounding (line 284). -/
def safetyStockRaw (sqrtFn : ℚ → ℚ) (data : List DemandRecord)
    (serviceLevel : ℚ) (row : InventoryItem) : ℚ :=
  zScore serviceLevel * demandStd sqrtFn data row.category *
    sqrtFn (row.lead_time_hours / 24)

/-- reorder_point before rounding (lines 283, 294). -/
def reorderPointRaw (sqrtFn : ℚ → ℚ) (data : List DemandRecord)
    (serviceLevel : ℚ) (row : InventoryItem) : ℚ :=
  catMean data row.category * (row.lead_time_hours / 24) +
    safetyStockRaw sqrtFn data serviceLevel row

/-- eoq before rounding, with the zero-holding-cost fallback (lines 287-291). -/
def eoqRaw (sqrtFn : ℚ → ℚ) (data : List DemandRecord) (row : InventoryItem) : ℚ :=
  let holding := row.storage_cost_per_unit * 0.2
  let annual := catMean data row.category * 365
  if 0 < holding then sqrtFn ((2 * annual * 50) / holding)
  else catMean data row.category * 7

/-- One iteration of the planner loop (lines 270-309).  The selection
demand_stats[category == c].iloc[0] raises IndexError when the category has
no demand records; that is the none case and it aborts the whole call. -/
def planRow (sqrtFn : ℚ → ℚ) (data : List DemandRecord) (serviceLevel : ℚ)
    (row : InventoryItem) : Option StockLevelPlan :=
  if catRecords data row.category = [] then none
  else
    some
      { dark_store_id := row.dark_store_id
        product_name := row.product_name
        category := row.category
        current_stock := row.current_stock
        avg_daily_demand := roundTo1 (catMean data row.category)
        safety_stock := roundTo1 (safetyStockRaw sqrtFn data serviceLevel row)
        reorder_point := roundTo1 (reorderPointRaw sqrtFn data serviceLevel row)
        optimal_max_stock := roundTo1 (reorderPointRaw sqrtFn data serviceLevel row +
          eoqRaw sqrtFn data row)
        eoq := roundTo1 (eoqRaw sqrtFn data row)
        lead_time_hours := row.lead_time_hours
        service_level := serviceLevel }

/-- Sequence a list of fallible steps: none as soon as one step raises,
mirroring an uncaught Python exception inside the row loop. -/
def traverseOpt {α β : Type} (f : α → Option β) : List α → Option (List β)
  | [] => some []
  | x :: xs =>
    match f x with
    | none => none
    | some y =>
      match traverseOpt f xs with
      | none => none
      | some ys => some (y :: ys)

/-- calculate_optimal_stock_levels: one plan per inventory row, aborting the
whole run on the first row whose category is absent from the demand
statistics. -/
def calculate_optimal_stock_levels (sqrtFn : ℚ → ℚ) (data : List DemandRecord)
    (inventory : List InventoryItem) (serviceLevel : ℚ) :
    Option (List StockLevelPlan) :=
  traverseOpt (planRow sqrtFn data serviceLevel) inventory

/-! ### Demand forecaster (forecast_demand, lines 181-240) -/

/-- Latest observed timestamp (sample_data timestamp max, line 198).
The default for an empty table is irrelevant: the source would already have
failed earlier on an empty table. -/
def maxTimestamp (data : List DemandRecord) : ℤ :=
  match data.map (fun r => r.timestamp) with
  | [] => 0
  | t :: ts => ts.foldl (fun a b => if a ≤ b then b else a) t

/-- Category keys in order of first appearance
(pandas Series.unique, line 124 / forecast_models keys, line 201). -/
def uniqueCats (data : List DemandRecord) : List String :=
  data.foldl (fun acc r => if r.category ∈ acc then acc else acc ++ [r.category]) []

/-- forecast_demand.  predictRaw c t stands for the raw output of the trained
model of category c applied to the synthetic feature vector for future
timestamp t (scaler plus linear model, lines 210-230, external sklearn
state).  The source clamps it at 0 and rounds to one decimal (lines 230,
236). -/
def forecast_demand (predictRaw : String → ℤ → ℚ) (data : List DemandRecord)
    (hoursAhead : ℕ) : List ForecastPoint :=
  let last := maxTimestamp data
  (uniqueCats data).flatMap (fun c =>
    (List.range hoursAhead).map (fun i =>
      let t := last + (i : ℤ) + 1
      { timestamp := t
        hour := t % 24
        category := c
        predicted_demand := roundTo1 (max 0 (predictRaw c t)) }))

/-! ### Restock scheduler (generate_restocking_schedule, lines 313-404) -/

/-- Earliest timestamp of the forecast table (forecasts timestamp min). -/
def minForecastTimestamp (fs : List ForecastPoint) : ℤ :=
  match fs.map (fun p => p.timestamp) with
  | [] => 0
  | t :: ts => ts.foldl (fun a b => if a ≤ b then a else b) t

/-- The filter next_24h_demand = forecasts[timestamp <= min + 24h]
(line 336).  Note the condition is inclusive at both ends. -/
def next24hPoints (fs : List ForecastPoint) : List ForecastPoint :=
  fs.filter (fun p => p.timestamp ≤ minForecastTimestamp fs + 24)

/-- Per-category sum of predicted demand over the filtered window together
with the lookup-or-zero of lines 357-360: a category with no rows in the
grouped summary contributes 0, which coincides with the sum over an empty
filter. -/
def catDemandSum (pts : List ForecastPoint) (c : String) : ℚ :=
  listSum ((pts.filter (fun p => p.category == c)).map (fun p => p.predicted_demand))

/-- Urgency classification (lines 367-374). -/
def urgencyOf (projectedStock reorderPoint : ℚ) : String :=
  if projectedStock ≤ 0 then "Critical"
  else if projectedStock ≤ reorderPoint * 0.5 then "High"
  else if projectedStock ≤ reorderPoint then "Medium"
  else "Low"

/-- Severity rank used for sorting (urgency_order dict, line 400.  The
pandas map would give NaN outside the four keys, which cannot occur;
modelled as 0). -/
def urgencyScore (u : String) : ℚ :=
  if u = "Critical" then 4
  else if u = "High" then 3
  else if u = "Medium" then 2
  else if u = "Low" then 1
  else 0

/-- Build one RestockAction from an inventory row, its matched plan row and
the 24h demand sum (lines 353-395). -/
def mkAction (opt : StockLevelPlan) (pred : ℚ) (row : InventoryItem) :
    RestockAction :=
  let reorderPoint := opt.reorder_point
  let maxStock := opt.optimal_max_stock
  let projected := row.current_stock - pred
  let needs : Bool := decide (projected ≤ reorderPoint)
  { dark_store_id := row.dark_store_id
    product_name := row.product_name
    category := row.category
    current_stock := row.current_stock
    predicted_demand_24h := roundTo1 pred
    projected_stock_24h := roundTo1 projected
    reorder_point := roundTo1 reorderPoint
    needs_restock := needs
    urgency := urgencyOf projected reorderPoint
    suggested_order_qty := roundTo1 (if needs then maxStock - row.current_stock else 0)
    lead_time_hours := row.lead_time_hours
    supplier_reliability := row.supplier_reliability }

/-- Sort key relation of sort_values([urgency_score, projected_stock_24h],
ascending=[False, True]) (line 402): urgency score descending, ties by
projected stock ascending. -/
def schedLE (a b : RestockAction) : Prop :=
  urgencyScore b.urgency < urgencyScore a.urgency ∨
    (urgencyScore a.urgency = urgencyScore b.urgency ∧
      a.projected_stock_24h ≤ b.projected_stock_24h)

instance : DecidableRel schedLE := fun a b => by
  unfold schedLE
  infer_instance

instance : IsTotal RestockAction schedLE where
  total a b := by
    unfold schedLE
    rcases lt_trichotomy (urgencyScore a.urgency) (urgencyScore b.urgency) with h | h | h
    · exact Or.inr (Or.inl h)
    · rcases le_total a.projected_stock_24h b.projected_stock_24h with hp | hp
      · exact Or.inl (Or.inr ⟨h, hp⟩)
      · exact Or.inr (Or.inr ⟨h.symm, hp⟩)
    · exact Or.inl (Or.inl h)

instance : IsTrans RestockAction schedLE where
  trans a b c hab hbc := by
    unfold schedLE at *
    rcases hab with h1 | ⟨h1, p1⟩ <;> rcases hbc with h2 | ⟨h2, p2⟩
    · exact Or.inl (lt_trans h2 h1)
    · exact Or.inl (h2 ▸ h1)
    · exact Or.inl (h1 ▸ h2)
    · exact Or.inr ⟨h1.trans h2, p1.trans p2⟩

/-- generate_restocking_schedule.  Calls the forecaster (horizon
hoursAhead, default 72 at line 313), the planner at the default service
level 0.95 (line 329), aggregates the 24h window, builds one action per
inventory row that has a matching plan row (lines 339-395) and sorts
(lines 399-402; pandas quicksort realizes an ordering satisfying the key
relation, modelled by insertion sort).  A planner abort propagates.
scheduleActions is the per-row loop of lines 339-395: one action per
inventory row that has a matching plan row, rows without a match skipped. -/
def scheduleActions (predictRaw : String → ℤ → ℚ)
    (data : List DemandRecord) (inventory : List InventoryItem)
    (hoursAhead : ℕ) (plans : List StockLevelPlan) : List RestockAction :=
  inventory.filterMap (fun row =>
    match plans.find? (fun p =>
      p.category == row.category && p.dark_store_id == row.dark_store_id) with
    | none => none
    | some opt =>
      some (mkAction opt
        (catDemandSum (next24hPoints (forecast_demand predictRaw data hoursAhead))
          row.category) row))

def generate_restocking_schedule (sqrtFn : ℚ → ℚ) (predictRaw : String → ℤ → ℚ)
    (data : List DemandRecord) (inventory : List InventoryItem)
    (hoursAhead : ℕ) : Option (List RestockAction) :=
  match calculate_optimal_stock_levels sqrtFn data inventory 0.95 with
  | none => none
  | some plans =>
    some (List.insertionSort schedLE
      (scheduleActions predictRaw data inventory hoursAhead plans))

/-! ### Cost estimator (calculate_inventory_costs, lines 406-447) -/

/-- Per-row cost figures added to the inventory table (lines 418-436). -/
structure CostRow where
  holding_cost : ℚ
  stockout_cost : ℚ
  total_cost : ℚ
deriving DecidableEq

/-- Mean demand of a category if it has records (the demand_dict of line
426), none otherwise. -/
def demandMeanLookup (data : List DemandRecord) (c : String) : Option ℚ :=
  if catRecords data c = [] then none else some (catMean data c)

/-- Cost computation for one inventory row (lines 418-433): dict.get with
default 10 for a category absent from the demand table, stockout
probability clamped at 0, 5 currency units per lost sale. -/
def inventoryCostRow (data : List DemandRecord) (row : InventoryItem) : CostRow :=
  let holding := row.current_stock * row.storage_cost_per_unit * 0.2 / 365
  let avgDemand := (demandMeanLookup data row.category).getD 10
  let stockoutProb :=
    if 0 < avgDemand then max 0 ((avgDemand - row.current_stock) / avgDemand) else 0
  let stockout := stockoutProb * avgDemand * 5
  { holding_cost := holding
    stockout_cost := stockout
    total_cost := holding + stockout }

/-- calculate_inventory_costs at row granularity: one CostRow per inventory
row, never failing. -/
def calculate_inventory_costs (data : List DemandRecord)
    (inventory : List InventoryItem) : List CostRow :=
  inventory.map (inventoryCostRow data)

/-! ### Feature builder (create_demand_features, lines 71-105) -/

/-- A working-copy row after feature engineering: the original record plus
the four cyclical encodings and the three lag columns.  A lag column value
none models a pandas NaN. -/
structure FeatureRow where
  base : DemandRecord
  hour_sin : ℚ
  hour_cos : ℚ
  day_sin : ℚ
  day_cos : ℚ
  demand_lag_1 : Option ℚ
  demand_lag_2 : Option ℚ
  demand_ma_3 : Option ℚ
deriving DecidableEq

/-- Timestamp order on indexed records, for the per-category
sort_values(timestamp) of line 90 (ties keep a fixed order; the source
leaves tie order unspecified). -/
def tsLeIdx (a b : ℕ × DemandRecord) : Prop := a.2.timestamp ≤ b.2.timestamp

instance : DecidableRel tsLeIdx := fun a b => by
  unfold tsLeIdx
  infer_instance

/-- Lag features of the j-th element of a timestamp-sorted category series
(lines 93-95): shift(1), shift(2) and the trailing window-3 mean. -/
def lagOfSorted (sds : List ℚ) (j : ℕ) : Option ℚ × Option ℚ × Option ℚ :=
  ( if j = 0 then none else sds.get? (j - 1)
  , if j < 2 then none else sds.get? (j - 2)
  , if j < 2 then none
    else
      match sds.get? (j - 2), sds.get? (j - 1), sds.get? j with
      | some a, some b, some c => some ((a + b + c) / 3)
      | _, _, _ => none )

/-- The lag values of one category written back to original row indices
(the data.loc assignments of lines 98-100, which align on the index). -/
def catAssignments (data : List DemandRecord) (c : String) :
    List (ℕ × (Option ℚ × Option ℚ × Option ℚ)) :=
  let sorted := List.insertionSort tsLeIdx
    (data.enum.filter (fun p => p.2.category == c))
  let sds := sorted.map (fun p => p.2.demand_quantity)
  sorted.enum.map (fun q => (q.2.1, lagOfSorted sds q.1))

/-- Lag assignments over all categories. -/
def allAssignments (data : List DemandRecord) :
    List (ℕ × (Option ℚ × Option ℚ × Option ℚ)) :=
  (uniqueCats data).flatMap (catAssignments data)

/-- The feature table before missing-value filling: cyclical encodings
(lines 82-85, with sinFn, cosFn, piV the numpy float primitives) and the
per-category lags in original row order. -/
def rawFeatureRows (sinFn cosFn : ℚ → ℚ) (piV : ℚ)
    (data : List DemandRecord) : List FeatureRow :=
  data.enum.map (fun p =>
    let r := p.2
    let lags := (List.lookup p.1 (allAssignments data)).getD (none, none, none)
    { base := r
      hour_sin := sinFn (2 * piV * (r.hour : ℚ) / 24)
      hour_cos := cosFn (2 * piV * (r.hour : ℚ) / 24)
      day_sin := sinFn (2 * piV * (r.dayOfWeek : ℚ) / 7)
      day_cos := cosFn (2 * piV * (r.dayOfWeek : ℚ) / 7)
      demand_lag_1 := lags.1
      demand_lag_2 := lags.2.1
      demand_ma_3 := lags.2.2 })

/-- pandas fillna(method=bfill) on one column over the WHOLE table: a
missing value takes the next valid value below it, regardless of category. -/
def bfillO : List (Option ℚ) → List (Option ℚ)
  | [] => []
  | x :: xs =>
    let rest := bfillO xs
    match x with
    | some v => some v :: rest
    | none => (rest.head?.bind id) :: rest

/-- pandas fillna(method=ffill) on one column: a missing value takes the
last valid value seen above it. -/
def ffillGo (carry : Option ℚ) : List (Option ℚ) → List (Option ℚ)
  | [] => []
  | x :: xs =>
    match x with
    | some v => some v :: ffillGo (some v) xs
    | none => carry :: ffillGo carry xs

def ffillO (l : List (Option ℚ)) : List (Option ℚ) := ffillGo none l

/-- Write filled lag columns back into the rows (positional). -/
def setLags : List FeatureRow → List (Option ℚ) → List (Option ℚ) →
    List (Option ℚ) → List FeatureRow
  | r :: rs, a :: la, b :: lb, c :: lc =>
    { r with demand_lag_1 := a, demand_lag_2 := b, demand_ma_3 := c } ::
      setLags rs la lb lc
  | _, _, _, _ => []

/-- create_demand_features: engineered columns, then the frame-global
data.fillna(bfill).fillna(ffill) of line 103 applied to each lag column
(the only columns that can hold NaN). -/
def create_demand_features (sinFn cosFn : ℚ → ℚ) (piV : ℚ)
    (data : List DemandRecord) : List FeatureRow :=
  let raws := rawFeatureRows sinFn cosFn piV data
  setLags raws
    (ffillO (bfillO (raws.map (fun r => r.demand_lag_1))))
    (ffillO (bfillO (raws.map (fun r => r.demand_lag_2))))
    (ffillO (bfillO (raws.map (fun r => r.demand_ma_3))))

/-! ### Model training (train_demand_forecasting_models, lines 107-179) -/

/-- Reported per-category error metrics (lines 165-176).  A non-finite
float MAPE (division by a zero held-out demand yields inf or nan under the
suppressed numpy warnings) is modelled as none. -/
structure CatMetrics where
  MAE : ℚ
  RMSE : ℚ
  MAPE : Option ℚ
deriving DecidableEq

/-- dropna over the seven feature columns (line 134): the four encodings are
always present, so a row is kept iff all three lag columns are present. -/
def validFeatureRow (r : FeatureRow) : Bool :=
  r.demand_lag_1.isSome && r.demand_lag_2.isSome && r.demand_ma_3.isSome

/-- Feature vector of a kept row, in the order of feature_columns
(lines 131-132). -/
def toVec (r : FeatureRow) : List ℚ :=
  [ r.hour_sin, r.hour_cos, r.day_sin, r.day_cos
  , r.demand_lag_1.getD 0, r.demand_lag_2.getD 0, r.demand_ma_3.getD 0 ]

/-- The MAPE of held-out pairs (actual, predicted), line 158: the float
mean of |(y - yhat) / y| times 100, rounded to two decimals.  A zero
actual value makes the float result inf or nan (non-finite), modelled as
none.  The pair list always has the length of the held-out split. -/
def mapeOf (pairs : List (ℚ × ℚ)) : Option ℚ :=
  if pairs.any (fun pr => pr.1 == 0) then none
  else some (roundTo2 (listSum (pairs.map (fun pr => |(pr.1 - pr.2) / pr.1|)) /
    ((pairs.length : ℚ)) * 100))

/-- Train and evaluate the model of one category (lines 134-176).
fit Xtr ytr is the external scaler-plus-linear-regression pipeline; the
embedding computes everything else: the 80/20 chronological split (int
truncation of len * 0.8 equals the natural floor of 4n/5), the held-out
metrics and their rounding.  split = 0 means sklearn raises on an empty
training set, aborting the run (none). -/
def trainCategory (sqrtFn : ℚ → ℚ)
    (fit : List (List ℚ) → List ℚ → List ℚ → ℚ)
    (rows : List FeatureRow) : Option CatMetrics :=
  let X := rows.filter validFeatureRow
  let y := X.map (fun r => r.base.demand_quantity)
  let split := 4 * X.length / 5
  if split = 0 then none
  else
    let predictFn := fit ((X.take split).map toVec) (y.take split)
    let yte := y.drop split
    let ypred := ((X.drop split).map toVec).map predictFn
    let pairs := yte.zip ypred
    let k : ℚ := (yte.length : ℚ)
    let mae := listSum (pairs.map (fun pr => |pr.1 - pr.2|)) / k
    let mse := listSum (pairs.map (fun pr => (pr.1 - pr.2) ^ 2)) / k
    some { MAE := roundTo2 mae, RMSE := roundTo2 (sqrtFn mse), MAPE := mapeOf pairs }

/-- Timestamp order on feature rows, for the per-category
sort_values(timestamp) of line 128. -/
def tsLeFeat (a b : FeatureRow) : Prop := a.base.timestamp ≤ b.base.timestamp

instance : DecidableRel tsLeFeat := fun a b => by
  unfold tsLeFeat
  infer_instance

/-- The feature rows of one category in chronological order (lines 127-128). -/
def categoryRows (featData : List FeatureRow) (c : String) : List FeatureRow :=
  List.insertionSort tsLeFeat (featData.filter (fun r => r.base.category == c))

/-- train_demand_forecasting_models: build features once, then train every
category in first-appearance order (the loop of lines 124-176).  There is
no row-count guard in the source: every unique category is trained, and an
sklearn error for any category aborts the whole call. -/
def train_demand_forecasting_models (sqrtFn sinFn cosFn : ℚ → ℚ) (piV : ℚ)
    (fit : List (List ℚ) → List ℚ → List ℚ → ℚ)
    (data : List DemandRecord) : Option (List (String × CatMetrics)) :=
  let featData := create_demand_features sinFn cosFn piV data
  traverseOpt
    (fun c => (trainCategory sqrtFn fit (categoryRows featData c)).map (fun m => (c, m)))
    (uniqueCats data)

/-! ### Spec-side definition used for the refinement comparison of claim C6 -/

/-- Modelled from the spec: the urgency threshold bullets of section 4.4,
written exactly as the spec states them, with both bounds explicit.  To be
compared with urgencyOf, which is translated from the source. -/
def urgencyFromSpec (projectedStock reorderPoint : ℚ) : String :=
  if projectedStock ≤ 0 then "Critical"
  else if 0 < projectedStock ∧ projectedStock ≤ 0.5 * reorderPoint then "High"
  else if 0.5 * reorderPoint < projectedStock ∧ projectedStock ≤ reorderPoint then "Medium"
  else "Low"

/-! ### Concrete instantiations of the external numeric primitives and
concrete input tables, used by counterexamples and witnesses -/

/-- A concrete stand-in for the float square root; the counterexamples are
arranged so that its value is irrelevant or only used where the source
multiplies it by zero-checked quantities. -/
def sqrtZero : ℚ → ℚ := fun _ => 0

/-- A concrete stand-in for the float sine and cosine. -/
def trigZero : ℚ → ℚ := fun _ => 0

/-- A constant raw model output for the forecaster. -/
def predConst (q : ℚ) : String → ℤ → ℚ := fun _ _ => q

/-- A constant regression pipeline for training. -/
def fitConst (q : ℚ) : List (List ℚ) → List ℚ → List ℚ → ℚ := fun _ _ _ => q

/-- One demand record of category A with unit demand at hour 0. -/
def dataA1 : List DemandRecord := [⟨0, 0, 0, "A", 1⟩]

/-- Inventory for the C2 counterexample: plenty of stock on hand. -/
def invC2 : List InventoryItem := [⟨"S1", "P1", "A", 20, 24, 0, 1⟩]

/-- Inventory for the C3 evaluation: large stock so the action is routine. -/
def invC3 : List InventoryItem := [⟨"S1", "P1", "A", 100, 24, 0, 1⟩]

/-- Inventory rows for the C4 counterexample: category A has demand data,
category B does not. -/
def rowC4A : InventoryItem := ⟨"S1", "P1", "A", 5, 24, 1, 1⟩

def rowC4B : InventoryItem := ⟨"S1", "P2", "B", 5, 24, 1, 1⟩

def invC4 : List InventoryItem := [rowC4A, rowC4B]

/-- Demand table for the C5 counterexample: category A has five records,
category B only two. -/
def dataC5 : List DemandRecord :=
  [ ⟨0, 0, 0, "A", 1⟩, ⟨1, 0, 0, "A", 2⟩, ⟨2, 0, 0, "A", 3⟩, ⟨3, 0, 0, "A", 4⟩,
    ⟨4, 0, 0, "A", 5⟩, ⟨0, 0, 0, "B", 100⟩, ⟨1, 0, 0, "B", 200⟩ ]

/-- Demand table for the C6 witness: one record with demand 50 makes the
plan reorder point exactly 50. -/
def dataC6 : List DemandRecord := [⟨0, 0, 0, "A", 50⟩]

/-- Inventory for the C6 witness: current stock equals the reorder point. -/
def invC6 : List InventoryItem := [⟨"S1", "P1", "A", 50, 24, 0, 1⟩]

/-- Demand table for the C7 counterexample: categories A and B interleaved
in table order, so the frame-global fill crosses category boundaries. -/
def dataC7 : List DemandRecord :=
  [ ⟨0, 0, 0, "A", 1⟩, ⟨0, 0, 0, "B", 100⟩, ⟨1, 0, 0, "A", 2⟩,
    ⟨1, 0, 0, "B", 200⟩, ⟨2, 0, 0, "A", 3⟩, ⟨2, 0, 0, "B", 300⟩ ]

/-- Feature rows for the C8 witness: four valid rows, nonzero demands. -/
def rowsC8 : List FeatureRow :=
  [ ⟨⟨0, 0, 0, "A", 1⟩, 0, 0, 0, 0, some 1, some 1, some 1⟩
  , ⟨⟨1, 0, 0, "A", 2⟩, 0, 0, 0, 0, some 1, some 1, some 1⟩
  , ⟨⟨2, 0, 0, "A", 3⟩, 0, 0, 0, 0, some 2, some 1, some 2⟩
  , ⟨⟨3, 0, 0, "A", 4⟩, 0, 0, 0, 0, some 3, some 2, some 2⟩ ]

/-- Demand table for the C8 counterexample: five records of one category
whose held-out (last) demand is zero. -/
def dataC8x : List DemandRecord :=
  [ ⟨0, 0, 0, "A", 1⟩, ⟨1, 0, 0, "A", 1⟩, ⟨2, 0, 0, "A", 1⟩,
    ⟨3, 0, 0, "A", 1⟩, ⟨4, 0, 0, "A", 0⟩ ]

/-- Demand table for the C9 counterexample: mean demand 0.62 produces
rounding mismatches between the three rounded plan fields. -/
def dataC9 : List DemandRecord := [⟨0, 0, 0, "A", 0.62⟩]

/-- Inventory for the C9 counterexample. -/
def invC9 : List InventoryItem := [⟨"S1", "P1", "A", 5, 24, 0, 1⟩]

/-- Demand table for the C9 witness. -/
def dataW9 : List DemandRecord := [⟨0, 0, 0, "A", 2⟩]

/-- Inventory for the C9 witness. -/
def invW9 : List InventoryItem := [⟨"S1", "P1", "A", 5, 24, 0, 1⟩]

/-- Inventory row for the C10 witness: category C has no demand records. -/
def rowW10 : InventoryItem := ⟨"S1", "P1", "C", 2, 24, 1, 1⟩

/-- The plan row the planner produces for dataW9 and invW9: mean demand 2,
zero safety stock under the zero square root, reorder point 2, eoq 14,
maximum 16. -/
def planW9 : StockLevelPlan := ⟨"S1", "P1", "A", 5, 2, 0, 2, 16, 14, 24, 0.95⟩

/-! ### Helper lemmas -/

theorem roundHalfEven_intCast (k : ℤ) : roundHalfEven (k : ℚ) = k := by
  unfold roundHalfEven
  rw [Int.floor_intCast]
  norm_num

theorem roundHalfEven_floor_le (q : ℚ) : ⌊q⌋ ≤ roundHalfEven q := by
  unfold roundHalfEven
  split_ifs <;> omega

theorem roundHalfEven_le_floor_add_one (q : ℚ) : roundHalfEven q ≤ ⌊q⌋ + 1 := by
  unfold roundHalfEven
  split_ifs <;> omega

theorem roundHalfEven_mono {x y : ℚ} (h : x ≤ y) :
    roundHalfEven x ≤ roundHalfEven y := by
  rcases lt_or_eq_of_le (Int.floor_le_floor h) with hf | hf
  · calc roundHalfEven x ≤ ⌊x⌋ + 1 := roundHalfEven_le_floor_add_one x
      _ ≤ ⌊y⌋ := by omega
      _ ≤ roundHalfEven y := roundHalfEven_floor_le y
  · have hrx : x - (⌊x⌋ : ℚ) ≤ y - (⌊y⌋ : ℚ) := by
      rw [← hf]; linarith
    unfold roundHalfEven
    rw [hf] at hrx ⊢
    split_ifs <;> first | omega | linarith

theorem roundTo1_zero : roundTo1 0 = 0 := by
  unfold roundTo1
  have h0 : (10 : ℚ) * 0 = ((0 : ℤ) : ℚ) := by norm_num
  rw [h0, roundHalfEven_intCast]
  norm_num

theorem roundTo1_mono {x y : ℚ} (h : x ≤ y) : roundTo1 x ≤ roundTo1 y := by
  unfold roundTo1
  have h1 : roundHalfEven (10 * x) ≤ roundHalfEven (10 * y) :=
    roundHalfEven_mono (by linarith)
  have h2 : ((roundHalfEven (10 * x) : ℤ) : ℚ) ≤ ((roundHalfEven (10 * y) : ℤ) : ℚ) := by
    exact_mod_cast h1
  linarith

theorem roundTo1_nonneg {x : ℚ} (h : 0 ≤ x) : 0 ≤ roundTo1 x := by
  have := roundTo1_mono h
  rw [roundTo1_zero] at this
  exact this

theorem roundTo2_zero : roundTo2 0 = 0 := by
  unfold roundTo2
  have h0 : (100 : ℚ) * 0 = ((0 : ℤ) : ℚ) := by norm_num
  rw [h0, roundHalfEven_intCast]
  norm_num

theorem roundTo2_mono {x y : ℚ} (h : x ≤ y) : roundTo2 x ≤ roundTo2 y := by
  unfold roundTo2
  have h1 : roundHalfEven (100 * x) ≤ roundHalfEven (100 * y) :=
    roundHalfEven_mono (by linarith)
  have h2 : ((roundHalfEven (100 * x) : ℤ) : ℚ) ≤ ((roundHalfEven (100 * y) : ℤ) : ℚ) := by
    exact_mod_cast h1
  linarith

theorem roundTo2_nonneg {x : ℚ} (h : 0 ≤ x) : 0 ≤ roundTo2 x := by
  have := roundTo2_mono h
  rw [roundTo2_zero] at this
  exact this

theorem isTenth_roundTo1 (q : ℚ) : isTenth (roundTo1 q) :=
  ⟨roundHalfEven (10 * q), rfl⟩

theorem isTenth_zero : isTenth 0 := ⟨0, by norm_num⟩

theorem isTenth_add {a b : ℚ} (ha : isTenth a) (hb : isTenth b) :
    isTenth (a + b) := by
  obtain ⟨m, hm⟩ := ha
  obtain ⟨n, hn⟩ := hb
  exact ⟨m + n, by push_cast [hm, hn]; ring⟩

theorem isTenth_sub {a b : ℚ} (ha : isTenth a) (hb : isTenth b) :
    isTenth (a - b) := by
  obtain ⟨m, hm⟩ := ha
  obtain ⟨n, hn⟩ := hb
  exact ⟨m - n, by push_cast [hm, hn]; ring⟩

theorem roundTo1_eq_self {q : ℚ} (h : isTenth q) : roundTo1 q = q := by
  obtain ⟨k, hk⟩ := h
  subst hk
  unfold roundTo1
  have h10 : (10 : ℚ) * ((k : ℚ) / 10) = (k : ℚ) := by ring
  rw [h10, roundHalfEven_intCast]

theorem traverseOpt_none_iff {α β : Type} (f : α → Option β) :
    ∀ l : List α, traverseOpt f l = none ↔ ∃ x ∈ l, f x = none := by
  intro l
  induction l with
  | nil => simp [traverseOpt]
  | cons x xs ih =>
    unfold traverseOpt
    cases hx : f x with
    | none => simp [hx]
    | some y =>
      cases hxs : traverseOpt f xs with
      | none =>
        simp only [hxs]
        constructor
        · intro _
          obtain ⟨z, hz, hfz⟩ := (ih).mp hxs
          exact ⟨z, List.mem_cons_of_mem x hz, hfz⟩
        · intro _; trivial
      | some ys =>
        simp only [hxs]
        constructor
        · intro h; exact absurd h (by simp)
        · rintro ⟨z, hz, hfz⟩
          rcases List.mem_cons.mp hz with rfl | hz'
          · rw [hfz] at hx; exact absurd hx (by simp)
          · have : traverseOpt f xs = none := (ih).mpr ⟨z, hz', hfz⟩
            rw [this] at hxs; exact absurd hxs (by simp)

theorem traverseOpt_mem {α β : Type} (f : α → Option β) :
    ∀ (l : List α) (ys : List β), traverseOpt f l = some ys →
      ∀ y ∈ ys, ∃ x ∈ l, f x = some y := by
  intro l
  induction l with
  | nil =>
    intro ys h y hy
    unfold traverseOpt at h
    cases h
    simp at hy
  | cons x xs ih =>
    intro ys h y hy
    unfold traverseOpt at h
    cases hx : f x with
    | none => rw [hx] at h; cases h
    | some z =>
      rw [hx] at h
      cases hxs : traverseOpt f xs with
      | none => rw [hxs] at h; cases h
      | some zs =>
        rw [hxs] at h
        cases h
        rcases List.mem_cons.mp hy with rfl | hy'
        · exact ⟨x, List.mem_cons_self x xs, hx⟩
        · obtain ⟨w, hw, hfw⟩ := ih zs hxs y hy'
          exact ⟨w, List.mem_cons_of_mem x hw, hfw⟩

theorem traverseOpt_map_proj {α β : Type} (f : α → Option β) (proj : β → α)
    (hf : ∀ x y, f x = some y → proj y = x) :
    ∀ (l : List α) (ys : List β), traverseOpt f l = some ys →
      ys.map proj = l := by
  intro l
  induction l with
  | nil =>
    intro ys h
    unfold traverseOpt at h
    cases h
    rfl
  | cons x xs ih =>
    intro ys h
    unfold traverseOpt at h
    cases hx : f x with
    | none => rw [hx] at h; cases h
    | some z =>
      rw [hx] at h
      cases hxs : traverseOpt f xs with
      | none => rw [hxs] at h; cases h
      | some zs =>
        rw [hxs] at h
        cases h
        simp only [List.map_cons]
        rw [hf x z hx, ih zs hxs]

theorem listSum_nonneg {l : List ℚ} (h : ∀ x ∈ l, 0 ≤ x) : 0 ≤ listSum l := by
  induction l with
  | nil => simp [listSum]
  | cons x xs ih =>
    have hx := h x (List.mem_cons_self x xs)
    have hxs := ih (fun z hz => h z (List.mem_cons_of_mem x hz))
    unfold listSum at *
    simp only [List.foldr_cons]
    linarith

theorem isTenth_listSum {l : List ℚ} (h : ∀ x ∈ l, isTenth x) :
    isTenth (listSum l) := by
  induction l with
  | nil => simpa [listSum] using isTenth_zero
  | cons x xs ih =>
    have hx := h x (List.mem_cons_self x xs)
    have hxs := ih (fun z hz => h z (List.mem_cons_of_mem x hz))
    unfold listSum at *
    simp only [List.foldr_cons]
    exact isTenth_add hx hxs

theorem planRow_none_iff (sqrtFn : ℚ → ℚ) (data : List DemandRecord)
    (serviceLevel : ℚ) (row : InventoryItem) :
    planRow sqrtFn data serviceLevel row = none ↔
      catRecords data row.category = [] := by
  unfold planRow
  split_ifs with h <;> simp [h]

theorem planRow_some_fields (sqrtFn : ℚ → ℚ) (data : List DemandRecord)
    (serviceLevel : ℚ) (row : InventoryItem) (p : StockLevelPlan)
    (h : planRow sqrtFn data serviceLevel row = some p) :
    p.reorder_point = roundTo1 (reorderPointRaw sqrtFn data serviceLevel row) ∧
    p.eoq = roundTo1 (eoqRaw sqrtFn data row) ∧
    p.optimal_max_stock = roundTo1 (reorderPointRaw sqrtFn data serviceLevel row +
      eoqRaw sqrtFn data row) := by
  unfold planRow at h
  split_ifs at h
  cases h
  exact ⟨rfl, rfl, rfl⟩

theorem zScore_pos (serviceLevel : ℚ) : 0 < zScore serviceLevel := by
  unfold zScore
  split_ifs <;> norm_num

theorem catMean_nonneg {data : List DemandRecord}
    (hd : ∀ r ∈ data, 0 ≤ r.demand_quantity) (c : String) :
    0 ≤ catMean data c := by
  unfold catMean
  apply div_nonneg
  · apply listSum_nonneg
    intro x hx
    obtain ⟨r, hr, rfl⟩ := List.mem_map.mp hx
    exact hd r (List.mem_of_mem_filter hr)
  · exact_mod_cast Nat.zero_le _

theorem demandStd_nonneg {data : List DemandRecord}
    (hd : ∀ r ∈ data, 0 ≤ r.demand_quantity) (sqrtFn : ℚ → ℚ) (c : String) :
    0 ≤ demandStd sqrtFn data c := by
  unfold demandStd
  cases catStd sqrtFn data c with
  | none =>
    simp only []
    have := catMean_nonneg hd c
    positivity
  | some s =>
    simp only []
    split_ifs with h
    · exact le_of_lt h
    · have := catMean_nonneg hd c
      positivity

theorem urgencyOf_eq_fromSpec (projectedStock reorderPoint : ℚ) :
    urgencyOf projectedStock reorderPoint =
      urgencyFromSpec projectedStock reorderPoint := by
  unfold urgencyOf urgencyFromSpec
  rcases le_or_lt projectedStock 0 with h0 | h0
  · rw [if_pos h0, if_pos h0]
  · rw [if_neg (not_le.mpr h0), if_neg (not_le.mpr h0)]
    rcases le_or_lt projectedStock (reorderPoint * 0.5) with hH | hH
    · rw [if_pos hH, if_pos (show 0 < projectedStock ∧
        projectedStock ≤ 0.5 * reorderPoint from ⟨h0, by linarith⟩)]
    · rw [if_neg (not_le.mpr hH)]
      have hs1 : ¬ (0 < projectedStock ∧ projectedStock ≤ 0.5 * reorderPoint) := by
        rintro ⟨_, hle⟩
        linarith
      rw [if_neg hs1]
      rcases le_or_lt projectedStock reorderPoint with hM | hM
      · rw [if_pos hM, if_pos (show 0.5 * reorderPoint < projectedStock ∧
          projectedStock ≤ reorderPoint from ⟨by linarith, hM⟩)]
      · rw [if_neg (not_le.mpr hM)]
        have hs2 : ¬ (0.5 * reorderPoint < projectedStock ∧
            projectedStock ≤ reorderPoint) := by
          rintro ⟨_, hle⟩
          linarith
        rw [if_neg hs2]

theorem bfillO_length : ∀ l : List (Option ℚ), (bfillO l).length = l.length := by
  intro l
  induction l with
  | nil => rfl
  | cons x xs ih =>
    unfold bfillO
    cases x <;> simp [ih]

theorem ffillGo_length : ∀ (l : List (Option ℚ)) (carry : Option ℚ),
    (ffillGo carry l).length = l.length := by
  intro l
  induction l with
  | nil => intro carry; rfl
  | cons x xs ih =>
    intro carry
    unfold ffillGo
    cases x <;> simp [ih]

theorem ffillO_length (l : List (Option ℚ)) : (ffillO l).length = l.length :=
  ffillGo_length l none

theorem bfillO_head_of_some :
    ∀ l : List (Option ℚ), (∃ x ∈ l, x.isSome = true) →
      ∃ v rest, bfillO l = some v :: rest := by
  intro l
  induction l with
  | nil =>
    rintro ⟨x, hx, _⟩
    simp at hx
  | cons x xs ih =>
    rintro ⟨z, hz, hzs⟩
    unfold bfillO
    cases hx : x with
    | some v => exact ⟨v, bfillO xs, rfl⟩
    | none =>
      rcases List.mem_cons.mp hz with rfl | hz'
      · rw [hx] at hzs; simp at hzs
      · obtain ⟨v, rest, hrec⟩ := ih ⟨z, hz', hzs⟩
        refine ⟨v, bfillO xs, ?_⟩
        rw [hrec]
        rfl

theorem ffillGo_all_some :
    ∀ (l : List (Option ℚ)) (v : ℚ),
      ∀ y ∈ ffillGo (some v) l, y.isSome = true := by
  intro l
  induction l with
  | nil =>
    intro v y hy
    simp [ffillGo] at hy
  | cons x xs ih =>
    intro v y hy
    unfold ffillGo at hy
    cases hx : x with
    | some w =>
      rw [hx] at hy
      rcases List.mem_cons.mp hy with rfl | hy'
      · rfl
      · exact ih w y hy'
    | none =>
      rw [hx] at hy
      rcases List.mem_cons.mp hy with rfl | hy'
      · rfl
      · exact ih v y hy'

theorem fill_total (l : List (Option ℚ)) (h : ∃ x ∈ l, x.isSome = true) :
    ∀ y ∈ ffillO (bfillO l), y.isSome = true := by
  obtain ⟨v, rest, hb⟩ := bfillO_head_of_some l h
  intro y hy
  unfold ffillO at hy
  rw [hb] at hy
  unfold ffillGo at hy
  rcases List.mem_cons.mp hy with rfl | hy'
  · rfl
  · exact ffillGo_all_some rest v y hy'

theorem setLags_fields :
    ∀ (rs : List FeatureRow) (a b c : List (Option ℚ)),
      rs.length = a.length → rs.length = b.length → rs.length = c.length →
      ∀ r ∈ setLags rs a b c,
        r.demand_lag_1 ∈ a ∧ r.demand_lag_2 ∈ b ∧ r.demand_ma_3 ∈ c := by
  intro rs
  induction rs with
  | nil =>
    intro a b c _ _ _ r hr
    simp [setLags] at hr
  | cons x xs ih =>
    intro a b c ha hb hc r hr
    cases a with
    | nil => simp at ha
    | cons a0 as0 =>
      cases b with
      | nil => simp at hb
      | cons b0 bs0 =>
        cases c with
        | nil => simp at hc
        | cons c0 cs0 =>
          unfold setLags at hr
          rcases List.mem_cons.mp hr with rfl | hr'
          · exact ⟨List.mem_cons_self _ _, List.mem_cons_self _ _,
              List.mem_cons_self _ _⟩
          · have := ih as0 bs0 cs0 (by simpa using ha) (by simpa using hb)
              (by simpa using hc) r hr'
            exact ⟨List.mem_cons_of_mem a0 this.1, List.mem_cons_of_mem b0 this.2.1,
              List.mem_cons_of_mem c0 this.2.2⟩

theorem forecast_predicted_isTenth (predictRaw : String → ℤ → ℚ)
    (data : List DemandRecord) (hoursAhead : ℕ) :
    ∀ p ∈ forecast_demand predictRaw data hoursAhead,
      isTenth p.predicted_demand := by
  intro p hp
  unfold forecast_demand at hp
  obtain ⟨c, _, hp2⟩ := List.mem_flatMap.mp hp
  obtain ⟨i, _, rfl⟩ := List.mem_map.mp hp2
  exact isTenth_roundTo1 _

theorem catDemandSum_isTenth (pts : List ForecastPoint) (c : String)
    (h : ∀ p ∈ pts, isTenth p.predicted_demand) :
    isTenth (catDemandSum pts c) := by
  unfold catDemandSum
  apply isTenth_listSum
  intro x hx
  obtain ⟨p, hp, rfl⟩ := List.mem_map.mp hx
  exact h p (List.mem_of_mem_filter hp)

/-! ### Claim theorems -/

/-- C1: every schedule produced by generate_restocking_schedule is totally
ordered: the urgency severity rank (Critical=4, High=3, Medium=2, Low=1) is
non-increasing from first to last row, and among rows of equal urgency the
projected_stock_24h values are non-decreasing, for every input, hence
regardless of the order in which inventory items appear. -/
theorem c1_schedule_sorted (sqrtFn : ℚ → ℚ) (predictRaw : String → ℤ → ℚ)
    (data : List DemandRecord) (inventory : List InventoryItem)
    (hoursAhead : ℕ) :
    ((generate_restocking_schedule sqrtFn predictRaw data inventory
        hoursAhead).getD []).Pairwise
      (fun a b => urgencyScore b.urgency ≤ urgencyScore a.urgency ∧
        (urgencyScore a.urgency = urgencyScore b.urgency →
          a.projected_stock_24h ≤ b.projected_stock_24h)) := by
  unfold generate_restocking_schedule
  cases h : calculate_optimal_stock_levels sqrtFn data inventory 0.95 with
  | none => simp [h]
  | some plans =>
    simp only [h, Option.getD_some]
    refine List.Pairwise.imp ?_ (List.sorted_insertionSort schedLE _)
    intro a b hab
    rcases hab with h1 | ⟨h1, h2⟩
    · refine ⟨le_of_lt h1, fun he => absurd he.symm (ne_of_lt h1)⟩
    · exact ⟨le_of_eq h1.symm, fun _ => h2⟩

/-- C2 (amended): the suggested order quantity of an action is the rounded
difference optimal_max_stock - current_stock whenever the projection is at
or below the reorder point, and 0 otherwise; there is no clamping at zero
in the source, so it can be negative (see the counterexample). -/
theorem c2_suggested_order_formula (opt : StockLevelPlan) (pred : ℚ)
    (row : InventoryItem) :
    (mkAction opt pred row).suggested_order_qty =
      if row.current_stock - pred ≤ opt.reorder_point
      then roundTo1 (opt.optimal_max_stock - row.current_stock)
      else 0 := by
  unfold mkAction
  by_cases h : row.current_stock - pred ≤ opt.reorder_point
  · simp [h]
  · simp [h, roundTo1_zero]

/-- C2 counterexample: a concrete run in which the single produced action
has needs_restock true and suggested_order_qty = -12 < 0, refuting both
the claimed max(0, ...) clamping and nonnegativity. -/
theorem c2_counterexample :
    ((generate_restocking_schedule sqrtZero (predConst 25) dataA1 invC2
        1).getD []).map
      (fun a => (a.needs_restock, a.suggested_order_qty)) = [(true, -12)] ∧
    ((-12 : ℚ) < 0) := by
  refine ⟨?_, by norm_num⟩
  norm_num +decide [generate_restocking_schedule, calculate_optimal_stock_levels,
    traverseOpt, planRow, catRecords, catMean, catStd, demandStd,
    safetyStockRaw, reorderPointRaw, eoqRaw, zScore, listSum,
    forecast_demand, uniqueCats, maxTimestamp, minForecastTimestamp,
    next24hPoints, catDemandSum, mkAction, urgencyOf, roundTo1,
    roundHalfEven, List.insertionSort, List.orderedInsert, dataA1, invC2,
    predConst, sqrtZero, List.range_succ]

/-- C4 (amended): the planner aborts as a whole - producing no output for
any row - exactly when some inventory row references a category with no
demand records; no per-row skipping takes place. -/
theorem c4_unknown_category_aborts (sqrtFn : ℚ → ℚ) (data : List DemandRecord)
    (inventory : List InventoryItem) (serviceLevel : ℚ) :
    calculate_optimal_stock_levels sqrtFn data inventory serviceLevel = none ↔
      ∃ row ∈ inventory, catRecords data row.category = [] := by
  unfold calculate_optimal_stock_levels
  rw [traverseOpt_none_iff]
  constructor
  · rintro ⟨row, hrow, hnone⟩
    exact ⟨row, hrow, (planRow_none_iff sqrtFn data serviceLevel row).mp hnone⟩
  · rintro ⟨row, hrow, hempty⟩
    exact ⟨row, hrow, (planRow_none_iff sqrtFn data serviceLevel row).mpr hempty⟩

/-- C4 counterexample: with demand data only for category A, an inventory
of a valid A row followed by a B row yields no stock-level output at all -
the valid A row is not produced either - refuting the claimed per-row
exclusion with continued processing. -/
theorem c4_counterexample :
    calculate_optimal_stock_levels sqrtZero dataA1 invC4 0.95 = none ∧
      (planRow sqrtZero dataA1 0.95 rowC4A).isSome = true := by
  constructor
  · norm_num +decide [calculate_optimal_stock_levels, traverseOpt, planRow,
      catRecords, dataA1, invC4, rowC4A, rowC4B]
  · norm_num +decide [planRow, catRecords, dataA1, rowC4A]

theorem mem_of_mem_next24hPoints {p : ForecastPoint} {fs : List ForecastPoint}
    (h : p ∈ next24hPoints fs) : p ∈ fs :=
  List.mem_of_mem_filter h

/-- C6: for every RestockAction produced by the scheduler, the urgency field
equals the spec threshold classification applied to the projected stock and
reorder point stored in the action: projected ≤ 0 Critical, up to half the
reorder point High, up to the reorder point Medium (inclusive), else Low.
Stated for inventories whose current stock is a one-decimal number, which
makes the stored rounded projection equal to the one the source classifies
(the source rounds the stored fields after classifying; predicted demand is
always an exact one-decimal value). -/
theorem c6_urgency_thresholds (sqrtFn : ℚ → ℚ) (predictRaw : String → ℤ → ℚ)
    (data : List DemandRecord) (inventory : List InventoryItem)
    (hoursAhead : ℕ)
    (hstock : ∀ i ∈ inventory, isTenth i.current_stock) :
    ((generate_restocking_schedule sqrtFn predictRaw data inventory
        hoursAhead).getD []).all
      (fun a => a.urgency == urgencyFromSpec a.projected_stock_24h
        a.reorder_point) = true := by
  unfold generate_restocking_schedule
  cases h : calculate_optimal_stock_levels sqrtFn data inventory 0.95 with
  | none => simp
  | some plans =>
    simp only [Option.getD_some]
    rw [List.all_eq_true]
    intro a ha
    have ha2 : a ∈ scheduleActions predictRaw data inventory hoursAhead plans :=
      (List.perm_insertionSort schedLE _).mem_iff.mp ha
    unfold scheduleActions at ha2
    obtain ⟨row, hrow, hfa⟩ := List.mem_filterMap.mp ha2
    cases hfind : plans.find? (fun p =>
        p.category == row.category && p.dark_store_id == row.dark_store_id) with
    | none => rw [hfind] at hfa; cases hfa
    | some opt =>
      rw [hfind] at hfa
      cases hfa
      have hpredT : isTenth (catDemandSum
          (next24hPoints (forecast_demand predictRaw data hoursAhead))
          row.category) := by
        apply catDemandSum_isTenth
        intro p hp
        exact forecast_predicted_isTenth predictRaw data hoursAhead p
          (mem_of_mem_next24hPoints hp)
      have hcsT : isTenth row.current_stock := hstock row hrow
      have hprojT : isTenth (row.current_stock - catDemandSum
          (next24hPoints (forecast_demand predictRaw data hoursAhead))
          row.category) := isTenth_sub hcsT hpredT
      have h' : traverseOpt (planRow sqrtFn data 0.95) inventory = some plans := h
      obtain ⟨row', hrow', hplan⟩ := traverseOpt_mem _ inventory plans h' opt
        (List.mem_of_find?_eq_some hfind)
      have hrpT : isTenth opt.reorder_point := by
        rw [(planRow_some_fields sqrtFn data 0.95 row' opt hplan).1]
        exact isTenth_roundTo1 _
      show ((mkAction opt _ row).urgency ==
        urgencyFromSpec (mkAction opt _ row).projected_stock_24h
          (mkAction opt _ row).reorder_point) = true
      have hfield1 : (mkAction opt (catDemandSum
          (next24hPoints (forecast_demand predictRaw data hoursAhead))
          row.category) row).projected_stock_24h =
          row.current_stock - catDemandSum
            (next24hPoints (forecast_demand predictRaw data hoursAhead))
            row.category := roundTo1_eq_self hprojT
      have hfield2 : (mkAction opt (catDemandSum
          (next24hPoints (forecast_demand predictRaw data hoursAhead))
          row.category) row).reorder_point = opt.reorder_point :=
        roundTo1_eq_self hrpT
      rw [beq_iff_eq, hfield1, hfield2]
      exact (urgencyOf_eq_fromSpec _ _).symm ▸ urgencyOf_eq_fromSpec _ _

/-- C6 witness: the concrete spec case - a plan with reorder point exactly
50, current stock 50 and zero predicted demand - yields projected stock 50
and urgency Medium, via the theorem applied at that input. -/
theorem c6_witness :
    ((generate_restocking_schedule sqrtZero (predConst 0) dataC6 invC6
        1).getD []).all
      (fun a => a.urgency == urgencyFromSpec a.projected_stock_24h
        a.reorder_point) = true ∧
    ((generate_restocking_schedule sqrtZero (predConst 0) dataC6 invC6
        1).getD []).map
      (fun a => (a.projected_stock_24h, a.reorder_point, a.urgency)) =
      [(50, 50, "Medium")] := by
  constructor
  · refine c6_urgency_thresholds sqrtZero (predConst 0) dataC6 invC6 1 ?_
    intro i hi
    have : i = ⟨"S1", "P1", "A", 50, 24, 0, 1⟩ := List.mem_singleton.mp hi
    rw [this]
    exact ⟨500, by norm_num⟩
  · norm_num +decide [generate_restocking_schedule,
      calculate_optimal_stock_levels, traverseOpt, planRow, catRecords,
      catMean, catStd, demandStd, safetyStockRaw, reorderPointRaw, eoqRaw,
      zScore, listSum, scheduleActions, forecast_demand, uniqueCats,
      maxTimestamp, minForecastTimestamp, next24hPoints, catDemandSum,
      mkAction, urgencyOf, roundTo1, roundHalfEven, List.insertionSort,
      List.orderedInsert, dataC6, invC6, predConst, sqrtZero,
      List.range_succ]

set_option maxRecDepth 4000 in
/-- C3: concrete evaluation of the off-by-one 24h window.  With a constant
unit forecast and a horizon of 26 hours, the filter
timestamp <= min + 24h keeps 25 hourly points (hours 1 through 25, both
ends inclusive), and the scheduler therefore reports
predicted_demand_24h = 25, not the 24 stated by the claim.  The same holds
for the default 72-hour horizon: every horizon of at least 25 hours yields
a 25-point window. -/
theorem c3_window_has_25_points :
    ((generate_restocking_schedule sqrtZero (predConst 1) dataA1 invC3
        26).getD []).map (fun a => a.predicted_demand_24h) = [25] ∧
    (next24hPoints (forecast_demand (predConst 1) dataA1 26)).length = 25 := by
  constructor
  · norm_num +decide [generate_restocking_schedule,
      calculate_optimal_stock_levels, traverseOpt, planRow, catRecords,
      catMean, catStd, demandStd, safetyStockRaw, reorderPointRaw, eoqRaw,
      zScore, listSum, scheduleActions, forecast_demand, uniqueCats,
      maxTimestamp, minForecastTimestamp, next24hPoints, catDemandSum,
      mkAction, urgencyOf, roundTo1, roundHalfEven, List.insertionSort,
      List.orderedInsert, dataA1, invC3, predConst, sqrtZero,
      List.range_succ]
  · norm_num +decide [forecast_demand, uniqueCats, maxTimestamp,
      minForecastTimestamp, next24hPoints, dataA1, predConst, roundTo1,
      roundHalfEven, List.range_succ]

/-- C5 (amended): training has no minimum-row guard and no skip list: when
train_demand_forecasting_models returns at all, it returns one trained
entry for every unique category of the data, in order, regardless of how
few feature rows a category has (and when some category makes sklearn
raise, the whole call aborts rather than skipping that category). -/
theorem c5_no_category_skipped (sqrtFn sinFn cosFn : ℚ → ℚ) (piV : ℚ)
    (fit : List (List ℚ) → List ℚ → List ℚ → ℚ) (data : List DemandRecord) :
    (train_demand_forecasting_models sqrtFn sinFn cosFn piV fit data).elim
      True (fun ms => ms.map Prod.fst = uniqueCats data) := by
  cases h : train_demand_forecasting_models sqrtFn sinFn cosFn piV fit data with
  | none => trivial
  | some ms =>
    show ms.map Prod.fst = uniqueCats data
    have h' : traverseOpt (fun c =>
        (trainCategory sqrtFn fit (categoryRows
          (create_demand_features sinFn cosFn piV data) c)).map
          (fun m => (c, m))) (uniqueCats data) = some ms := h
    refine traverseOpt_map_proj _ Prod.fst ?_ (uniqueCats data) ms h'
    intro x y hxy
    cases hg : trainCategory sqrtFn fit (categoryRows
        (create_demand_features sinFn cosFn piV data) x) with
    | none => rw [hg] at hxy; cases hxy
    | some m => rw [hg] at hxy; cases hxy; rfl

/-- C5 counterexample: category B has only two demand records (fewer than
the four the claim requires for training), yet the training run returns a
model entry for B; nothing is skipped and no skip list exists. -/
theorem c5_counterexample :
    ((train_demand_forecasting_models sqrtZero trigZero trigZero 0
        (fitConst 1) dataC5).map (fun ms => ms.map Prod.fst)) =
      some (["A", "B"]) ∧
    (((categoryRows (create_demand_features trigZero trigZero 0 dataC5)
        ("B")).filter validFeatureRow).length = 2) := by
  constructor
  · norm_num +decide [train_demand_forecasting_models, traverseOpt,
      trainCategory, categoryRows, create_demand_features, rawFeatureRows,
      allAssignments, catAssignments, lagOfSorted, uniqueCats, tsLeIdx,
      tsLeFeat, bfillO, ffillO, ffillGo, setLags, validFeatureRow, toVec,
      listSum, roundTo2, roundHalfEven, List.insertionSort,
      List.orderedInsert, List.lookup, List.enum, List.enumFrom, dataC5,
      fitConst, trigZero, sqrtZero]
  · norm_num +decide [categoryRows, create_demand_features, rawFeatureRows,
      allAssignments, catAssignments, lagOfSorted, uniqueCats, tsLeIdx,
      tsLeFeat, bfillO, ffillO, ffillGo, setLags, validFeatureRow,
      List.insertionSort, List.orderedInsert, List.lookup, List.enum,
      List.enumFrom, dataC5, trigZero]

/-- C7 (amended): the missing-value fill of create_demand_features is
back-fill-then-forward-fill over the WHOLE table in row order, across
category boundaries: whenever a lag column holds at least one computed
value anywhere in the table, no missing value remains in that column after
filling - but a leading gap takes the next valid value in table order even
when that value belongs to a different category (see the counterexample). -/
theorem c7_fill_leaves_no_missing (sinFn cosFn : ℚ → ℚ) (piV : ℚ)
    (data : List DemandRecord) :
    ((∃ r ∈ rawFeatureRows sinFn cosFn piV data, r.demand_lag_1.isSome = true) →
      ∀ r ∈ create_demand_features sinFn cosFn piV data,
        r.demand_lag_1.isSome = true) ∧
    ((∃ r ∈ rawFeatureRows sinFn cosFn piV data, r.demand_lag_2.isSome = true) →
      ∀ r ∈ create_demand_features sinFn cosFn piV data,
        r.demand_lag_2.isSome = true) ∧
    ((∃ r ∈ rawFeatureRows sinFn cosFn piV data, r.demand_ma_3.isSome = true) →
      ∀ r ∈ create_demand_features sinFn cosFn piV data,
        r.demand_ma_3.isSome = true) := by
  have hlen : ∀ l : List (Option ℚ), (ffillO (bfillO l)).length = l.length := by
    intro l
    rw [ffillO_length, bfillO_length]
  set raws := rawFeatureRows sinFn cosFn piV data with hraws
  have hsl := setLags_fields raws
    (ffillO (bfillO (raws.map (fun r => r.demand_lag_1))))
    (ffillO (bfillO (raws.map (fun r => r.demand_lag_2))))
    (ffillO (bfillO (raws.map (fun r => r.demand_ma_3))))
    (by rw [hlen, List.length_map]) (by rw [hlen, List.length_map])
    (by rw [hlen, List.length_map])
  refine ⟨?_, ?_, ?_⟩
  · rintro ⟨r0, hr0, hs0⟩ r hr
    have hcol : r.demand_lag_1 ∈
        ffillO (bfillO (raws.map (fun r => r.demand_lag_1))) := (hsl r hr).1
    exact fill_total _ ⟨r0.demand_lag_1,
      List.mem_map_of_mem (fun r => r.demand_lag_1) hr0, hs0⟩ _ hcol
  · rintro ⟨r0, hr0, hs0⟩ r hr
    have hcol : r.demand_lag_2 ∈
        ffillO (bfillO (raws.map (fun r => r.demand_lag_2))) := (hsl r hr).2.1
    exact fill_total _ ⟨r0.demand_lag_2,
      List.mem_map_of_mem (fun r => r.demand_lag_2) hr0, hs0⟩ _ hcol
  · rintro ⟨r0, hr0, hs0⟩ r hr
    have hcol : r.demand_ma_3 ∈
        ffillO (bfillO (raws.map (fun r => r.demand_ma_3))) := (hsl r hr).2.2
    exact fill_total _ ⟨r0.demand_ma_3,
      List.mem_map_of_mem (fun r => r.demand_ma_3) hr0, hs0⟩ _ hcol

/-- C7 counterexample: with categories A and B interleaved, the leading gap
of the B series in demand_lag_1 is filled with 1, the first lag value of
the A series, not with 100, the first available computed value of the B
series - values do bleed across categories, refuting the per-category fill
claim. -/
theorem c7_counterexample :
    (create_demand_features trigZero trigZero 0 dataC7).map
      (fun r => (r.base.category, r.demand_lag_1)) =
      [("A", some 1), ("B", some 1), ("A", some 1), ("B", some 100),
       ("A", some 2), ("B", some 200)] ∧
    ((dataC7.get? 1).map (fun r => r.category) = some ("B")) := by
  constructor
  · norm_num +decide [create_demand_features, rawFeatureRows,
      allAssignments, catAssignments, lagOfSorted, uniqueCats, tsLeIdx,
      bfillO, ffillO, ffillGo, setLags, List.insertionSort,
      List.orderedInsert, List.lookup, List.enum, List.enumFrom, dataC7,
      trigZero]
  · norm_num [dataC7]

/-- C7 witness: the filling theorem applied to the concrete interleaved
table - the raw lag-1 column has a value, so every row of the feature
table has one after filling. -/
theorem c7_witness :
    ∀ r ∈ create_demand_features trigZero trigZero 0 dataC7,
      r.demand_lag_1.isSome = true := by
  refine (c7_fill_leaves_no_missing trigZero trigZero 0 dataC7).1 ?_
  norm_num +decide [rawFeatureRows, allAssignments, catAssignments,
    lagOfSorted, uniqueCats, tsLeIdx, List.insertionSort,
    List.orderedInsert, List.lookup, List.enum, List.enumFrom, dataC7,
    trigZero]

/-- The finite MAPE case: no zero actual value gives some nonnegative
result. -/
theorem mapeOf_nonneg (pairs : List (ℚ × ℚ))
    (h : ∀ pr ∈ pairs, pr.1 ≠ 0) :
    ∃ v, mapeOf pairs = some v ∧ 0 ≤ v := by
  have hany : ¬ (pairs.any (fun pr => pr.1 == 0) = true) := by
    intro hcontra
    obtain ⟨pr, hpr, hpr0⟩ := List.any_eq_true.mp hcontra
    exact h pr hpr (by simpa using hpr0)
  unfold mapeOf
  rw [if_neg hany]
  refine ⟨_, rfl, ?_⟩
  apply roundTo2_nonneg
  apply mul_nonneg
  · apply div_nonneg
    · apply listSum_nonneg
      intro x hx
      obtain ⟨pr, _, rfl⟩ := List.mem_map.mp hx
      exact abs_nonneg _
    · exact_mod_cast Nat.zero_le _
  · norm_num

/-- C8 (amended): for a category whose feature table has at least 4 valid
rows, training returns metrics, and the reported MAPE is a finite
non-negative number PROVIDED every held-out actual demand value is nonzero;
the row-count precondition alone does not prevent a zero held-out demand,
which makes the float MAPE non-finite (see the counterexample). -/
theorem c8_mape_finite_nonneg (sqrtFn : ℚ → ℚ)
    (fit : List (List ℚ) → List ℚ → List ℚ → ℚ) (rows : List FeatureRow)
    (hn : 4 ≤ (rows.filter validFeatureRow).length)
    (hz : ∀ yv ∈ ((rows.filter validFeatureRow).map
        (fun r => r.base.demand_quantity)).drop
        (4 * (rows.filter validFeatureRow).length / 5), yv ≠ 0) :
    ∃ m, trainCategory sqrtFn fit rows = some m ∧
      ∃ v, m.MAPE = some v ∧ 0 ≤ v := by
  have hsplit : ¬ (4 * (rows.filter validFeatureRow).length / 5 = 0) := by
    omega
  simp only [trainCategory]
  rw [if_neg hsplit]
  refine ⟨_, rfl, ?_⟩
  apply mapeOf_nonneg
  intro pr hpr
  exact hz pr.1 (List.of_mem_zip hpr).1

/-- C8 witness: the theorem applied to four concrete valid feature rows
with nonzero demands. -/
theorem c8_witness :
    ∃ m, trainCategory sqrtZero (fitConst 1) rowsC8 = some m ∧
      ∃ v, m.MAPE = some v ∧ 0 ≤ v := by
  refine c8_mape_finite_nonneg sqrtZero (fitConst 1) rowsC8 ?_ ?_
  · norm_num [rowsC8, validFeatureRow]
  · norm_num [rowsC8, validFeatureRow]

/-- C8 counterexample: category A has five valid post-lag feature rows
(at least four, satisfying the claim precondition), but its single held-out
demand value is zero, so the reported MAPE is non-finite (inf or nan in the
float source, none here), refuting the claimed finiteness. -/
theorem c8_counterexample :
    ((train_demand_forecasting_models sqrtZero trigZero trigZero 0
        (fitConst 1) dataC8x).map
      (fun ms => ms.map (fun p => (p.1, p.2.MAPE)))) =
      some [("A", (none : Option ℚ))] ∧
    (((categoryRows (create_demand_features trigZero trigZero 0 dataC8x)
        ("A")).filter validFeatureRow).length = 5) := by
  constructor
  · norm_num +decide [train_demand_forecasting_models, traverseOpt,
      trainCategory, mapeOf, categoryRows, create_demand_features,
      rawFeatureRows, allAssignments, catAssignments, lagOfSorted,
      uniqueCats, tsLeIdx, tsLeFeat, bfillO, ffillO, ffillGo, setLags,
      validFeatureRow, toVec, listSum, roundTo2, roundHalfEven,
      List.insertionSort, List.orderedInsert, List.lookup, List.enum,
      List.enumFrom, dataC8x, fitConst, trigZero, sqrtZero]
  · norm_num +decide [categoryRows, create_demand_features, rawFeatureRows,
      allAssignments, catAssignments, lagOfSorted, uniqueCats, tsLeIdx,
      tsLeFeat, bfillO, ffillO, ffillGo, setLags, validFeatureRow,
      List.insertionSort, List.orderedInsert, List.lookup, List.enum,
      List.enumFrom, dataC8x, trigZero]

/-- C9 (amended): under nonnegative demand data and nonnegative lead times
(and the square root primitive mapping nonnegative inputs to nonnegative
outputs), every produced plan row satisfies
optimal_max_stock ≥ reorder_point ≥ 0 and eoq ≥ 0; the additive identity
optimal_max_stock = reorder_point + eoq holds for the UNROUNDED quantities
- the stored field is round(rp + eoq, 1), which can differ from the sum of
the two independently rounded stored fields by one tenth (see the
counterexample). -/
theorem c9_plan_invariants (sqrtFn : ℚ → ℚ) (data : List DemandRecord)
    (inventory : List InventoryItem) (serviceLevel : ℚ)
    (hd : ∀ r ∈ data, 0 ≤ r.demand_quantity)
    (hl : ∀ i ∈ inventory, 0 ≤ i.lead_time_hours)
    (hs : ∀ x : ℚ, 0 ≤ x → 0 ≤ sqrtFn x) :
    ∀ p ∈ (calculate_optimal_stock_levels sqrtFn data inventory
        serviceLevel).getD [],
      (0 ≤ p.reorder_point ∧ p.reorder_point ≤ p.optimal_max_stock ∧
        0 ≤ p.eoq) ∧
      ∃ rp eoq : ℚ, 0 ≤ eoq ∧ p.reorder_point = roundTo1 rp ∧
        p.eoq = roundTo1 eoq ∧ p.optimal_max_stock = roundTo1 (rp + eoq) := by
  intro p hp
  cases h : calculate_optimal_stock_levels sqrtFn data inventory serviceLevel with
  | none => rw [h] at hp; simp at hp
  | some ps =>
    rw [h] at hp
    simp only [Option.getD_some] at hp
    have h' : traverseOpt (planRow sqrtFn data serviceLevel) inventory =
      some ps := h
    obtain ⟨row, hrow, hplan⟩ := traverseOpt_mem _ inventory ps h' p hp
    obtain ⟨hrp, heoq, hmax⟩ :=
      planRow_some_fields sqrtFn data serviceLevel row p hplan
    have hmean : 0 ≤ catMean data row.category := catMean_nonneg hd _
    have hlead : 0 ≤ row.lead_time_hours := hl row hrow
    have hlt24 : 0 ≤ row.lead_time_hours / 24 := div_nonneg hlead (by norm_num)
    have hsafety : 0 ≤ safetyStockRaw sqrtFn data serviceLevel row := by
      unfold safetyStockRaw
      exact mul_nonneg (mul_nonneg (le_of_lt (zScore_pos serviceLevel))
        (demandStd_nonneg hd sqrtFn _)) (hs _ hlt24)
    have hrpraw : 0 ≤ reorderPointRaw sqrtFn data serviceLevel row := by
      unfold reorderPointRaw
      exact add_nonneg (mul_nonneg hmean hlt24) hsafety
    have heoqraw : 0 ≤ eoqRaw sqrtFn data row := by
      simp only [eoqRaw]
      split_ifs with hh
      · exact hs _ (div_nonneg (by nlinarith [hmean]) (le_of_lt hh))
      · exact mul_nonneg hmean (by norm_num)
    refine ⟨⟨?_, ?_, ?_⟩, reorderPointRaw sqrtFn data serviceLevel row,
      eoqRaw sqrtFn data row, heoqraw, hrp, heoq, hmax⟩
    · rw [hrp]
      exact roundTo1_nonneg hrpraw
    · rw [hrp, hmax]
      exact roundTo1_mono (by linarith)
    · rw [heoq]
      exact roundTo1_nonneg heoqraw

/-- C9 counterexample: mean demand 0.62, lead time 24h and zero storage
cost give raw reorder point 0.62, raw eoq 4.34 and raw maximum 4.96; after
the per-field rounding of the source the stored plan has reorder_point
0.6, eoq 4.3 and optimal_max_stock 5.0, so the claimed identity
optimal_max_stock = reorder_point + eoq fails (5.0 vs 4.9). -/
theorem c9_counterexample :
    ((calculate_optimal_stock_levels sqrtZero dataC9 invC9 0.95).getD
        []).map (fun p => (p.reorder_point, p.eoq, p.optimal_max_stock)) =
      [(0.6, 4.3, 5.0)] ∧
    ¬ ((5.0 : ℚ) = 0.6 + 4.3) := by
  constructor
  · norm_num +decide [calculate_optimal_stock_levels, traverseOpt, planRow,
      catRecords, catMean, catStd, demandStd, safetyStockRaw,
      reorderPointRaw, eoqRaw, zScore, listSum, roundTo1, roundHalfEven,
      dataC9, invC9, sqrtZero]
  · norm_num

/-- C9 witness: the invariants theorem applied to a concrete one-record
table and one inventory row, at the single plan row the planner produces,
hypotheses discharged at that input. -/
theorem c9_witness :
    (0 ≤ planW9.reorder_point ∧
      planW9.reorder_point ≤ planW9.optimal_max_stock ∧ 0 ≤ planW9.eoq) ∧
    ∃ rp eoq : ℚ, 0 ≤ eoq ∧ planW9.reorder_point = roundTo1 rp ∧
      planW9.eoq = roundTo1 eoq ∧
      planW9.optimal_max_stock = roundTo1 (rp + eoq) := by
  refine c9_plan_invariants sqrtZero dataW9 invW9 0.95 (by norm_num [dataW9])
    (by norm_num [invW9]) (fun x _ => le_refl 0) planW9 ?_
  norm_num +decide [calculate_optimal_stock_levels, traverseOpt, planRow,
    catRecords, catMean, catStd, demandStd, safetyStockRaw, reorderPointRaw,
    eoqRaw, zScore, listSum, roundTo1, roundHalfEven, dataW9, invW9,
    sqrtZero, planW9]

/-- C10: the cost estimator never fails - it produces exactly one cost row
per inventory row - and for a row whose category is absent from the demand
table it silently substitutes the constant average demand 10, making its
stockout cost max(0, (10 - current_stock)/10) * 10 * 5. -/
theorem c10_missing_category_default (data : List DemandRecord)
    (inventory : List InventoryItem) :
    (calculate_inventory_costs data inventory).length = inventory.length ∧
    ∀ row ∈ inventory, catRecords data row.category = [] →
      (inventoryCostRow data row).stockout_cost =
        max 0 ((10 - row.current_stock) / 10) * 10 * 5 := by
  constructor
  · unfold calculate_inventory_costs
    exact List.length_map _ _
  · intro row hrow hempty
    simp only [inventoryCostRow, demandMeanLookup]
    rw [if_pos hempty]
    norm_num

/-- C10 witness: the theorem applied to an empty demand table and one
inventory row of an unknown category. -/
theorem c10_witness :
    (inventoryCostRow [] rowW10).stockout_cost =
      max 0 ((10 - rowW10.current_stock) / 10) * 10 * 5 :=
  (c10_missing_category_default [] [rowW10]).2 rowW10
    (List.mem_singleton.mpr rfl) rfl
